import Mathlib

/-!
Shallow embedding of the Friction simulation model
(`js/friction/model/FrictionModel.js`, with the evaporation-sample
construction from `js/view/magnifier/Magnifier.js`).

Numbers are modelled as exact rationals.  The Axon property system of the
source fires change listeners synchronously; the two listeners of the model
(the position listener that updates `distance` and applies contact heating,
and the temperature listener that triggers `evaporate`) are inlined at each
property write, in source order.  `contactProperty` is a pure function of
`distanceProperty` (`floor(distance) <= 0`) and is modelled as the derived
predicate `contact`.  The uniformly random index drawn by
`Math.floor(Math.random() * row.length)` is modelled by an oracle argument
`k : ℕ`, reduced modulo the row length, so every index in range is covered.
-/

namespace Friction

/- The Batteries library marks the `Rat` arithmetic operations
`@[irreducible]`; restore default reducibility so that concrete states can
be evaluated by `decide` (the kernel ignores reducibility either way). -/
set_option allowUnsafeReducibility true
attribute [semireducible] Rat.add Rat.sub Rat.mul Rat.inv Rat.div Rat.neg

/-- Constant `DISTANCE_Y = 20` — y-distance between neighbor atoms (one row height). -/
def DISTANCE_Y : ℚ := 20

/-- Constant `DISTANCE_INITIAL = 25` — initial distance between top and bottom atoms. -/
def DISTANCE_INITIAL : ℚ := 25

/-- Constant `AMPLITUDE_MIN = 1` — min amplitude for an atom. -/
def AMPLITUDE_MIN : ℚ := 1

/-- Constant `AMPLITUDE_EVAPORATE = 7` — evaporation amplitude for an atom. -/
def AMPLITUDE_EVAPORATE : ℚ := 7

/-- Constant `AMPLITUDE_MAX = 12` — atom's max amplitude. -/
def AMPLITUDE_MAX : ℚ := 12

/-- Constant `COOLING_RATE = 0.2` — proportion per second. -/
def COOLING_RATE : ℚ := 1/5

/-- Constant `HEATING_MULTIPLIER = 0.0075` — multiplied by distance moved while in contact. -/
def HEATING_MULTIPLIER : ℚ := 3/400

/-- Constant `EVAPORATION_AMPLITUDE_REDUCTION = 0.01` — decrease in amplitude when an atom evaporates. -/
def EVAPORATION_AMPLITUDE_REDUCTION : ℚ := 1/100

/-- Constant `MAX_X_DISPLACEMENT = 600` — max allowed distance from center x. -/
def MAX_X_DISPLACEMENT : ℚ := 600

/-- Constant `MIN_Y_POSITION = -70` — lowest allowed top-book y position. -/
def MIN_Y_POSITION : ℚ := -70

/-- An atom of the evaporation queue.  The sources contain two generations
of the atom view class: the older flag-less `Atom` (in the concatenation
holding `friction.js`), and `AtomNode` (in the concatenation holding
`CoverNode.js`), which carries `isEvaporated`, initialized `false`, set to
`true` by `AtomNode.evaporate()` and back to `false` by
`AtomNode.reset()`.  The queue elements are modelled with the
`isEvaporated` flag of `AtomNode`, the variant matching the
property-based `FrictionModel.js` embedded here; the animation state
(`x0`, `y0`, drift handler) is view-only and not part of the model
claims. -/
structure Atom where
  isEvaporated : Bool
deriving DecidableEq

/-- One group entry of the static layout tables `topAtomsStructure` and
`bottomAtomsStructure`: `{ offset, num, evaporate }`. -/
structure AtomGroup where
  offset : ℚ
  num : ℕ
  evaporate : Bool
deriving DecidableEq

/-- Layout table `topAtomsStructure` from `FrictionModel.js`: 5 rows, the
last 4 of which can evaporate. -/
def topAtomsStructure : List (List AtomGroup) :=
  [ [⟨0, 30, false⟩],
    [⟨1/2, 29, true⟩],
    [⟨0, 29, true⟩],
    [⟨1/2, 5, true⟩, ⟨13/2, 8, true⟩, ⟨31/2, 5, true⟩, ⟨43/2, 5, true⟩, ⟨55/2, 1, true⟩],
    [⟨3, 2, true⟩, ⟨8, 1, true⟩, ⟨12, 2, true⟩, ⟨17, 2, true⟩, ⟨24, 2, true⟩] ]

/-- Layout table `bottomAtomsStructure` from `FrictionModel.js`: 3 rows,
none of which evaporate. -/
def bottomAtomsStructure : List (List AtomGroup) :=
  [ [⟨0, 29, false⟩],
    [⟨1/2, 28, false⟩],
    [⟨0, 29, false⟩] ]

/-- The row of atoms collected for one layer by the `addLayer` closure of
`Magnifier.addAtoms`: the atoms of groups with `evaporate: true` are pushed
onto `row`. -/
def layerRow (layer : List AtomGroup) : List Atom :=
  layer.foldl (fun row g => if g.evaporate then row ++ List.replicate g.num ⟨false⟩ else row) []

/-- Whether `addLayer` pushes its row onto `model.toEvaporateSample`: the
`evaporate` local holds the flag of the layer's last group after the loop. -/
def layerPushes (layer : List AtomGroup) : Bool :=
  match layer.getLast? with
  | some g => g.evaporate
  | none => false

/-- The rows pushed onto `toEvaporateSample` while adding one book's layers. -/
def buildSample (layers : List (List AtomGroup)) : List (List Atom) :=
  layers.foldl (fun acc layer => if layerPushes layer then acc ++ [layerRow layer] else acc) []

/-- Sample `model.toEvaporateSample` as populated by `Magnifier.addAtoms`:
top-book layers first, then bottom-book layers (the latter contribute
nothing since no bottom row evaporates). -/
def toEvaporateSample : List (List Atom) :=
  buildSample topAtomsStructure ++ buildSample bottomAtomsStructure

/-- The mutable state of `FrictionModel`.  `evaporatedAtoms` records the
atoms spliced out of the queue (they are handed to the view for the detach
animation), marked by `atom.evaporate()`, which in the `AtomNode` variant
sets `isEvaporated`. -/
structure FrictionState where
  temperature : ℚ
  positionX : ℚ
  positionY : ℚ
  distance : ℚ
  bottomOffset : ℚ
  scheduledEvaporationAmount : ℚ
  toEvaporate : List (List Atom)
  atomRowsToEvaporate : ℕ
  hint : Bool
  newStep : Bool
  minYPos : Option ℚ
  evaporatedAtoms : List Atom
deriving DecidableEq

/-- Derived signal `contactProperty`, kept in sync with `distanceProperty`
by the distance link: `Math.floor(distance) <= 0`. -/
def contact (s : FrictionState) : Bool :=
  decide (⌊s.distance⌋ ≤ 0)

/-- Effect of `row.splice(i, 1)` on the row: remove the element at index `i`. -/
def spliceOne (row : List Atom) (i : ℕ) : List Atom :=
  row.take i ++ row.drop (i + 1)

/-- First half of `FrictionModel.evaporate`: if the last row exists and is
empty, pop it, grow `distance` by one row height and publish the new row
count. -/
def popIfEmptyLast (s : FrictionState) : FrictionState :=
  match s.toEvaporate.getLast? with
  | some row =>
      if row.isEmpty then
        { s with toEvaporate := s.toEvaporate.dropLast,
                 distance := s.distance + DISTANCE_Y,
                 atomRowsToEvaporate := s.toEvaporate.dropLast.length }
      else s
  | none => s

/-- Second half of `FrictionModel.evaporate`: if a last row remains, splice
out the atom at the random index (`k` is the random oracle; on an empty row
`splice(0, 1)` yields no atom and nothing happens), mark it evaporated and
schedule the cooling decrement. -/
def evaporateFrom (k : ℕ) (s : FrictionState) : FrictionState :=
  match s.toEvaporate.getLast? with
  | some row =>
      if hr : 0 < row.length then
        let i := k % row.length
        let a := row.get ⟨i, Nat.mod_lt k hr⟩
        { s with toEvaporate := s.toEvaporate.dropLast ++ [spliceOne row i],
                 evaporatedAtoms := s.evaporatedAtoms ++ [{ a with isEvaporated := true }],
                 scheduledEvaporationAmount :=
                   s.scheduledEvaporationAmount + EVAPORATION_AMPLITUDE_REDUCTION }
      else s
  | none => s

/-- Operation `FrictionModel.evaporate`, with random oracle `k`. -/
def evaporate (k : ℕ) (s : FrictionState) : FrictionState :=
  evaporateFrom k (popIfEmptyLast s)

/-- Effect of `temperatureProperty.set t` including its change listener: the
listener fires only when the number actually changes, and calls `evaporate`
when the new amplitude exceeds the evaporation limit. -/
def setTemperature (k : ℕ) (t : ℚ) (s : FrictionState) : FrictionState :=
  if t = s.temperature then s
  else
    let s1 := { s with temperature := t }
    if t > AMPLITUDE_EVAPORATE then evaporate k s1 else s1

/-- Effect of `positionProperty.set (nx, ny)` including its change listener
(the set always notifies, since `plus` allocates a fresh vector):
`distance` shrinks by the y-delta, and if the books are then in contact,
the absolute x-delta heats the model, clamped at `AMPLITUDE_MAX`. -/
def setPosition (k : ℕ) (nx ny : ℚ) (s : FrictionState) : FrictionState :=
  let dx := |nx - s.positionX|
  let s1 := { s with positionX := nx, positionY := ny,
                     distance := s.distance - (ny - s.positionY) }
  if contact s1 then
    setTemperature k (min (s1.temperature + dx * HEATING_MULTIPLIER) AMPLITUDE_MAX) s1
  else s1

/-- The "check bottom offset" stage of `FrictionModel.move`: a pending
positive bottom offset swallows an upward (negative-y) component whole. -/
def moveStage1 (vy : ℚ) (s : FrictionState) : FrictionState × ℚ :=
  if s.bottomOffset > 0 ∧ vy < 0 then
    ({ s with bottomOffset := s.bottomOffset + vy }, 0)
  else (s, vy)

/-- The vertical-limit stage of `FrictionModel.move`: a downward motion is
capped by the remaining gap (the excess feeding the bottom offset), and an
upward motion is capped by `minYPos` (undefined before `init`, in which
case the comparison is falsy and no cap applies). -/
def moveStage2 (vy : ℚ) (s : FrictionState) : FrictionState × ℚ :=
  if vy > s.distance then
    ({ s with bottomOffset := s.bottomOffset + vy - s.distance }, s.distance)
  else
    match s.minYPos with
    | some m => if s.positionY + vy < m then (s, m - s.positionY) else (s, vy)
    | none => (s, vy)

/-- The horizontal displacement `FrictionModel.move` actually applies after
the `MAX_X_DISPLACEMENT` clamp (the clamp reads only `positionX`, which the
vertical stages never change). -/
def clampedDx (s : FrictionState) (vx : ℚ) : ℚ :=
  if s.positionX + vx > MAX_X_DISPLACEMENT then MAX_X_DISPLACEMENT - s.positionX
  else if s.positionX + vx < -MAX_X_DISPLACEMENT then -MAX_X_DISPLACEMENT - s.positionX
  else vx

/-- Operation `FrictionModel.move {x := vx, y := vy}`, with random oracle
`k` for the evaporation the contact heating may trigger. -/
def move (k : ℕ) (vx vy : ℚ) (s : FrictionState) : FrictionState :=
  let s0 := { s with hint := false }
  let p1 := moveStage1 vy s0
  let p2 := moveStage2 p1.2 p1.1
  let vx1 := clampedDx p2.1 vx
  setPosition k (p2.1.positionX + vx1) (p2.1.positionY + p2.2) p2.1

/-- Operation `FrictionModel.step dt` with random oracle `k`: no-op for
`dt > 0.5`, otherwise toggle `newStepProperty`, cool the atoms (subtracting
the scheduled evaporation amount, decaying toward `AMPLITUDE_MIN`), then
clear the accumulator. -/
def step (k : ℕ) (dt : ℚ) (s : FrictionState) : FrictionState :=
  if dt > 1/2 then s
  else
    let s1 := { s with newStep := !s.newStep }
    let t := s1.temperature - s1.scheduledEvaporationAmount
    let t2 := max AMPLITUDE_MIN (t * (1 - dt * COOLING_RATE))
    let s2 := setTemperature k t2 s1
    { s2 with scheduledEvaporationAmount := 0 }

/-- Operation `FrictionModel.init`: rebuild `toEvaporate` from the sample
(resetting every atom's flag), publish the row count, and set the minimum y
position. -/
def init (s : FrictionState) : FrictionState :=
  let q := toEvaporateSample.map (fun row => row.map (fun a => { a with isEvaporated := false }))
  { s with toEvaporate := q,
           atomRowsToEvaporate := q.length,
           minYPos := some MIN_Y_POSITION }

/-- The state the `FrictionModel` constructor builds (before the view calls
`init`; `minYPos` is still undefined). -/
def constructedState : FrictionState :=
  { temperature := AMPLITUDE_MIN
    positionX := 0
    positionY := 0
    distance := DISTANCE_INITIAL
    bottomOffset := 0
    scheduledEvaporationAmount := 0
    toEvaporate := []
    atomRowsToEvaporate := 0
    hint := true
    newStep := false
    minYPos := none
    evaporatedAtoms := [] }

/-- The initial state of the simulation: the constructor followed by the
`init` call the view performs at the end of its construction. -/
def initState : FrictionState :=
  init constructedState

/-- Operation `FrictionModel.reset`: each property is reset to its initial
value, in source order, firing the same links a `set` would (resetting the
position fires the position listener with the old position, so `distance`
first becomes `distance + oldY` before being reset to `DISTANCE_INITIAL`);
`scheduledEvaporationAmount` is not cleared; finally `init` runs. -/
def reset (k : ℕ) (s : FrictionState) : FrictionState :=
  let s1 := setTemperature k AMPLITUDE_MIN s
  let s2 := setPosition k 0 0 s1
  let s3 := { s2 with distance := DISTANCE_INITIAL }
  let s4 := { s3 with bottomOffset := 0, atomRowsToEvaporate := 0,
                      hint := true, newStep := false }
  init s4

/-- The states reachable from the initialized simulation by the public
operations; `step` receives a nonnegative frame time. -/
inductive Reachable : FrictionState → Prop where
  | ofInit : Reachable initState
  | ofStep (k : ℕ) (dt : ℚ) (s : FrictionState) (hdt : 0 ≤ dt) (h : Reachable s) :
      Reachable (step k dt s)
  | ofMove (k : ℕ) (vx vy : ℚ) (s : FrictionState) (h : Reachable s) :
      Reachable (move k vx vy s)
  | ofEvaporate (k : ℕ) (s : FrictionState) (h : Reachable s) :
      Reachable (evaporate k s)
  | ofReset (k : ℕ) (s : FrictionState) (h : Reachable s) :
      Reachable (reset k s)

/-- The inductive invariant of the model: temperature bounds, a nonnegative
evaporation accumulator, position/distance bounds, the post-`init` minimum
y position, and conservation of `distance + positionY` (the position
listener trades one for the other; evaporation only grows it). -/
def Invariant (s : FrictionState) : Prop :=
  AMPLITUDE_MIN ≤ s.temperature ∧ s.temperature ≤ AMPLITUDE_MAX ∧
  0 ≤ s.scheduledEvaporationAmount ∧
  0 ≤ s.distance ∧
  MIN_Y_POSITION ≤ s.positionY ∧
  -MAX_X_DISPLACEMENT ≤ s.positionX ∧ s.positionX ≤ MAX_X_DISPLACEMENT ∧
  s.minYPos = some MIN_Y_POSITION ∧
  DISTANCE_INITIAL ≤ s.distance + s.positionY

/-- The list-of-moves interpreter used to state claims about arbitrary
sequences of `move` calls. -/
def applyMoves (ms : List (ℕ × ℚ × ℚ)) (s : FrictionState) : FrictionState :=
  ms.foldl (fun t m => move m.1 m.2.1 m.2.2 t) s

/-! ### Projection lemmas for `popIfEmptyLast` and `evaporateFrom` -/

theorem pop_temperature (s : FrictionState) :
    (popIfEmptyLast s).temperature = s.temperature := by
  unfold popIfEmptyLast; split <;> (try split) <;> simp

theorem pop_positionX (s : FrictionState) :
    (popIfEmptyLast s).positionX = s.positionX := by
  unfold popIfEmptyLast; split <;> (try split) <;> simp

theorem pop_positionY (s : FrictionState) :
    (popIfEmptyLast s).positionY = s.positionY := by
  unfold popIfEmptyLast; split <;> (try split) <;> simp

theorem pop_bottomOffset (s : FrictionState) :
    (popIfEmptyLast s).bottomOffset = s.bottomOffset := by
  unfold popIfEmptyLast; split <;> (try split) <;> simp

theorem pop_minYPos (s : FrictionState) :
    (popIfEmptyLast s).minYPos = s.minYPos := by
  unfold popIfEmptyLast; split <;> (try split) <;> simp

theorem pop_sched (s : FrictionState) :
    (popIfEmptyLast s).scheduledEvaporationAmount = s.scheduledEvaporationAmount := by
  unfold popIfEmptyLast; split <;> (try split) <;> simp

theorem pop_distance_le (s : FrictionState) :
    s.distance ≤ (popIfEmptyLast s).distance := by
  unfold popIfEmptyLast; split <;> (try split) <;> simp [DISTANCE_Y]

theorem pop_rows_le (s : FrictionState) :
    (popIfEmptyLast s).toEvaporate.length ≤ s.toEvaporate.length := by
  unfold popIfEmptyLast; split <;> (try split) <;> simp [List.length_dropLast]

theorem pop_of_last_ne_nil (s : FrictionState) (row : List Atom)
    (h : s.toEvaporate.getLast? = some row) (hne : row ≠ []) :
    popIfEmptyLast s = s := by
  unfold popIfEmptyLast
  rw [h]
  simp [List.isEmpty_iff, hne]

theorem evaporateFrom_temperature (k : ℕ) (s : FrictionState) :
    (evaporateFrom k s).temperature = s.temperature := by
  unfold evaporateFrom; split <;> (try split) <;> simp

theorem evaporateFrom_positionX (k : ℕ) (s : FrictionState) :
    (evaporateFrom k s).positionX = s.positionX := by
  unfold evaporateFrom; split <;> (try split) <;> simp

theorem evaporateFrom_positionY (k : ℕ) (s : FrictionState) :
    (evaporateFrom k s).positionY = s.positionY := by
  unfold evaporateFrom; split <;> (try split) <;> simp

theorem evaporateFrom_bottomOffset (k : ℕ) (s : FrictionState) :
    (evaporateFrom k s).bottomOffset = s.bottomOffset := by
  unfold evaporateFrom; split <;> (try split) <;> simp

theorem evaporateFrom_minYPos (k : ℕ) (s : FrictionState) :
    (evaporateFrom k s).minYPos = s.minYPos := by
  unfold evaporateFrom; split <;> (try split) <;> simp

theorem evaporateFrom_distance (k : ℕ) (s : FrictionState) :
    (evaporateFrom k s).distance = s.distance := by
  unfold evaporateFrom; split <;> (try split) <;> simp

theorem evaporateFrom_atomRows (k : ℕ) (s : FrictionState) :
    (evaporateFrom k s).atomRowsToEvaporate = s.atomRowsToEvaporate := by
  unfold evaporateFrom; split <;> (try split) <;> simp

theorem evaporateFrom_sched_le (k : ℕ) (s : FrictionState) :
    s.scheduledEvaporationAmount ≤ (evaporateFrom k s).scheduledEvaporationAmount := by
  unfold evaporateFrom; split <;> (try split) <;> simp [EVAPORATION_AMPLITUDE_REDUCTION]

theorem evaporateFrom_rows_eq (k : ℕ) (s : FrictionState) :
    (evaporateFrom k s).toEvaporate.length = s.toEvaporate.length := by
  unfold evaporateFrom
  split <;> (try split) <;> simp [List.length_dropLast]
  case _ l row heq hr =>
    have hnil : s.toEvaporate ≠ [] := by
      intro h; rw [h] at heq; simp at heq
    have := List.length_pos.mpr hnil
    omega

/-! ### Projection lemmas for `evaporate` -/

theorem evaporate_temperature (k : ℕ) (s : FrictionState) :
    (evaporate k s).temperature = s.temperature := by
  unfold evaporate; rw [evaporateFrom_temperature, pop_temperature]

theorem evaporate_positionX (k : ℕ) (s : FrictionState) :
    (evaporate k s).positionX = s.positionX := by
  unfold evaporate; rw [evaporateFrom_positionX, pop_positionX]

theorem evaporate_positionY (k : ℕ) (s : FrictionState) :
    (evaporate k s).positionY = s.positionY := by
  unfold evaporate; rw [evaporateFrom_positionY, pop_positionY]

theorem evaporate_bottomOffset (k : ℕ) (s : FrictionState) :
    (evaporate k s).bottomOffset = s.bottomOffset := by
  unfold evaporate; rw [evaporateFrom_bottomOffset, pop_bottomOffset]

theorem evaporate_minYPos (k : ℕ) (s : FrictionState) :
    (evaporate k s).minYPos = s.minYPos := by
  unfold evaporate; rw [evaporateFrom_minYPos, pop_minYPos]

theorem evaporate_distance_le (k : ℕ) (s : FrictionState) :
    s.distance ≤ (evaporate k s).distance := by
  unfold evaporate; rw [evaporateFrom_distance]; exact pop_distance_le s

theorem evaporate_sched_le (k : ℕ) (s : FrictionState) :
    s.scheduledEvaporationAmount ≤ (evaporate k s).scheduledEvaporationAmount := by
  unfold evaporate
  calc s.scheduledEvaporationAmount
      = (popIfEmptyLast s).scheduledEvaporationAmount := (pop_sched s).symm
    _ ≤ _ := evaporateFrom_sched_le k _

theorem evaporate_rows_le (k : ℕ) (s : FrictionState) :
    (evaporate k s).toEvaporate.length ≤ s.toEvaporate.length := by
  unfold evaporate
  rw [evaporateFrom_rows_eq]
  exact pop_rows_le s

/-! ### Lemmas for `setTemperature` -/

theorem setTemperature_temperature (k : ℕ) (t : ℚ) (s : FrictionState) :
    (setTemperature k t s).temperature = t := by
  unfold setTemperature
  split
  case isTrue h => exact h.symm
  case isFalse h =>
    split
    · rw [evaporate_temperature]
    · rfl

theorem setTemperature_positionX (k : ℕ) (t : ℚ) (s : FrictionState) :
    (setTemperature k t s).positionX = s.positionX := by
  unfold setTemperature
  split
  · rfl
  · split
    · rw [evaporate_positionX]
    · rfl

theorem setTemperature_positionY (k : ℕ) (t : ℚ) (s : FrictionState) :
    (setTemperature k t s).positionY = s.positionY := by
  unfold setTemperature
  split
  · rfl
  · split
    · rw [evaporate_positionY]
    · rfl

theorem setTemperature_bottomOffset (k : ℕ) (t : ℚ) (s : FrictionState) :
    (setTemperature k t s).bottomOffset = s.bottomOffset := by
  unfold setTemperature
  split
  · rfl
  · split
    · rw [evaporate_bottomOffset]
    · rfl

theorem setTemperature_minYPos (k : ℕ) (t : ℚ) (s : FrictionState) :
    (setTemperature k t s).minYPos = s.minYPos := by
  unfold setTemperature
  split
  · rfl
  · split
    · rw [evaporate_minYPos]
    · rfl

theorem setTemperature_distance_le (k : ℕ) (t : ℚ) (s : FrictionState) :
    s.distance ≤ (setTemperature k t s).distance := by
  unfold setTemperature
  split
  · exact le_refl _
  · split
    · exact evaporate_distance_le k _
    · exact le_refl _

theorem setTemperature_sched_le (k : ℕ) (t : ℚ) (s : FrictionState) :
    s.scheduledEvaporationAmount ≤ (setTemperature k t s).scheduledEvaporationAmount := by
  unfold setTemperature
  split
  · exact le_refl _
  · split
    · exact evaporate_sched_le k _
    · exact le_refl _

theorem setTemperature_rows_le (k : ℕ) (t : ℚ) (s : FrictionState) :
    (setTemperature k t s).toEvaporate.length ≤ s.toEvaporate.length := by
  unfold setTemperature
  split
  · exact le_refl _
  · split
    · exact evaporate_rows_le k _
    · exact le_refl _

theorem setTemperature_no_evap (k : ℕ) (t : ℚ) (s : FrictionState)
    (h : ¬ AMPLITUDE_EVAPORATE < t) :
    setTemperature k t s = { s with temperature := t } := by
  unfold setTemperature
  by_cases h1 : t = s.temperature
  · rw [if_pos h1, h1]
  · rw [if_neg h1, if_neg h]

/-! ### Lemmas for `setPosition` -/

theorem setPosition_positionX (k : ℕ) (nx ny : ℚ) (s : FrictionState) :
    (setPosition k nx ny s).positionX = nx := by
  simp only [setPosition]
  split
  · rw [setTemperature_positionX]
  · rfl

theorem setPosition_positionY (k : ℕ) (nx ny : ℚ) (s : FrictionState) :
    (setPosition k nx ny s).positionY = ny := by
  simp only [setPosition]
  split
  · rw [setTemperature_positionY]
  · rfl

theorem setPosition_bottomOffset (k : ℕ) (nx ny : ℚ) (s : FrictionState) :
    (setPosition k nx ny s).bottomOffset = s.bottomOffset := by
  simp only [setPosition]
  split
  · rw [setTemperature_bottomOffset]
  · rfl

theorem setPosition_minYPos (k : ℕ) (nx ny : ℚ) (s : FrictionState) :
    (setPosition k nx ny s).minYPos = s.minYPos := by
  simp only [setPosition]
  split
  · rw [setTemperature_minYPos]
  · rfl

theorem setPosition_sched_le (k : ℕ) (nx ny : ℚ) (s : FrictionState) :
    s.scheduledEvaporationAmount ≤ (setPosition k nx ny s).scheduledEvaporationAmount := by
  simp only [setPosition]
  split
  · exact setTemperature_sched_le k _ _
  · exact le_refl _

theorem setPosition_rows_le (k : ℕ) (nx ny : ℚ) (s : FrictionState) :
    (setPosition k nx ny s).toEvaporate.length ≤ s.toEvaporate.length := by
  simp only [setPosition]
  split
  · exact setTemperature_rows_le k _ _
  · exact le_refl _

theorem setPosition_distance_ge (k : ℕ) (nx ny : ℚ) (s : FrictionState) :
    s.distance - (ny - s.positionY) ≤ (setPosition k nx ny s).distance := by
  simp only [setPosition]
  split
  · exact setTemperature_distance_le k _ _
  · exact le_refl _

theorem setPosition_temperature_contact (k : ℕ) (nx ny : ℚ) (s : FrictionState)
    (h : ⌊s.distance - (ny - s.positionY)⌋ ≤ 0) :
    (setPosition k nx ny s).temperature =
      min (s.temperature + |nx - s.positionX| * HEATING_MULTIPLIER) AMPLITUDE_MAX := by
  simp only [setPosition]
  rw [if_pos (by simp [contact, h]), setTemperature_temperature]

theorem setPosition_temperature_no_contact (k : ℕ) (nx ny : ℚ) (s : FrictionState)
    (h : ¬ ⌊s.distance - (ny - s.positionY)⌋ ≤ 0) :
    (setPosition k nx ny s).temperature = s.temperature := by
  simp only [setPosition]
  rw [if_neg (by simp [contact, h])]

theorem setPosition_temperature_bounds (k : ℕ) (nx ny : ℚ) (s : FrictionState)
    (h1 : AMPLITUDE_MIN ≤ s.temperature) (h2 : s.temperature ≤ AMPLITUDE_MAX) :
    AMPLITUDE_MIN ≤ (setPosition k nx ny s).temperature ∧
      (setPosition k nx ny s).temperature ≤ AMPLITUDE_MAX := by
  by_cases hc : ⌊s.distance - (ny - s.positionY)⌋ ≤ 0
  · rw [setPosition_temperature_contact k nx ny s hc]
    constructor
    · apply le_min
      · have : (0:ℚ) ≤ |nx - s.positionX| * HEATING_MULTIPLIER := by
          apply mul_nonneg (abs_nonneg _)
          norm_num [HEATING_MULTIPLIER]
        linarith
      · norm_num [AMPLITUDE_MIN, AMPLITUDE_MAX]
    · exact min_le_right _ _
  · rw [setPosition_temperature_no_contact k nx ny s hc]
    exact ⟨h1, h2⟩

/-! ### Lemmas for the stages of `move` -/

theorem moveStage1_fields (vy : ℚ) (s : FrictionState) :
    (moveStage1 vy s).1.temperature = s.temperature ∧
    (moveStage1 vy s).1.positionX = s.positionX ∧
    (moveStage1 vy s).1.positionY = s.positionY ∧
    (moveStage1 vy s).1.distance = s.distance ∧
    (moveStage1 vy s).1.minYPos = s.minYPos ∧
    (moveStage1 vy s).1.scheduledEvaporationAmount = s.scheduledEvaporationAmount ∧
    (moveStage1 vy s).1.toEvaporate = s.toEvaporate := by
  unfold moveStage1; split <;> simp

theorem moveStage2_fields (vy : ℚ) (s : FrictionState) :
    (moveStage2 vy s).1.temperature = s.temperature ∧
    (moveStage2 vy s).1.positionX = s.positionX ∧
    (moveStage2 vy s).1.positionY = s.positionY ∧
    (moveStage2 vy s).1.distance = s.distance ∧
    (moveStage2 vy s).1.minYPos = s.minYPos ∧
    (moveStage2 vy s).1.scheduledEvaporationAmount = s.scheduledEvaporationAmount ∧
    (moveStage2 vy s).1.toEvaporate = s.toEvaporate := by
  unfold moveStage2
  split
  · simp
  · split <;> (try split) <;> simp

theorem moveStage2_bounds (vy : ℚ) (s : FrictionState) (m : ℚ)
    (hm : s.minYPos = some m) (hy : m ≤ s.positionY) (hd : 0 ≤ s.distance) :
    m ≤ s.positionY + (moveStage2 vy s).2 ∧ (moveStage2 vy s).2 ≤ s.distance := by
  unfold moveStage2
  by_cases h : vy > s.distance
  · rw [if_pos h]
    exact ⟨show m ≤ s.positionY + s.distance from by linarith,
           show s.distance ≤ s.distance from le_refl _⟩
  · rw [if_neg h, hm]
    push_neg at h
    dsimp only
    by_cases h2 : s.positionY + vy < m
    · rw [if_pos h2]
      exact ⟨show m ≤ s.positionY + (m - s.positionY) from by linarith,
             show m - s.positionY ≤ s.distance from by linarith⟩
    · rw [if_neg h2]
      push_neg at h2
      exact ⟨show m ≤ s.positionY + vy from by linarith,
             show vy ≤ s.distance from h⟩

theorem clampedDx_bounds (s : FrictionState) (vx : ℚ) :
    -MAX_X_DISPLACEMENT ≤ s.positionX + clampedDx s vx ∧
      s.positionX + clampedDx s vx ≤ MAX_X_DISPLACEMENT := by
  unfold clampedDx
  split_ifs with h1 h2 <;> constructor <;> simp [MAX_X_DISPLACEMENT] at * <;> linarith

theorem setPosition_temperature_le (k : ℕ) (nx ny : ℚ) (s : FrictionState)
    (h : s.temperature ≤ AMPLITUDE_MAX) :
    (setPosition k nx ny s).temperature ≤ AMPLITUDE_MAX := by
  by_cases hc : ⌊s.distance - (ny - s.positionY)⌋ ≤ 0
  · rw [setPosition_temperature_contact k nx ny s hc]
    exact min_le_right _ _
  · rw [setPosition_temperature_no_contact k nx ny s hc]
    exact h

/-! ### Preservation of the invariant -/

theorem invariant_move_core (k : ℕ) (vx vy2 : ℚ) (s2 : FrictionState)
    (hT1 : AMPLITUDE_MIN ≤ s2.temperature) (hT2 : s2.temperature ≤ AMPLITUDE_MAX)
    (hS : 0 ≤ s2.scheduledEvaporationAmount)
    (hy2 : MIN_Y_POSITION ≤ s2.positionY + vy2)
    (hvd : vy2 ≤ s2.distance)
    (hM : s2.minYPos = some MIN_Y_POSITION)
    (hDY : DISTANCE_INITIAL ≤ s2.distance + s2.positionY) :
    Invariant (setPosition k (s2.positionX + clampedDx s2 vx) (s2.positionY + vy2) s2) := by
  have hge := setPosition_distance_ge k (s2.positionX + clampedDx s2 vx) (s2.positionY + vy2) s2
  have hd : s2.distance - (s2.positionY + vy2 - s2.positionY) = s2.distance - vy2 := by ring
  rw [hd] at hge
  have hb := setPosition_temperature_bounds k (s2.positionX + clampedDx s2 vx)
    (s2.positionY + vy2) s2 hT1 hT2
  refine ⟨hb.1, hb.2, ?_, ?_, ?_, ?_, ?_, ?_, ?_⟩
  · exact le_trans hS (setPosition_sched_le k _ _ s2)
  · linarith
  · rw [setPosition_positionY]
    exact hy2
  · rw [setPosition_positionX]
    exact (clampedDx_bounds s2 vx).1
  · rw [setPosition_positionX]
    exact (clampedDx_bounds s2 vx).2
  · rw [setPosition_minYPos]
    exact hM
  · rw [setPosition_positionY]
    linarith

theorem invariant_move (k : ℕ) (vx vy : ℚ) (s : FrictionState) (hInv : Invariant s) :
    Invariant (move k vx vy s) := by
  obtain ⟨hT1, hT2, hS, hD, hY, hXl, hXr, hM, hDY⟩ := hInv
  simp only [move]
  obtain ⟨a1, a2, a3, a4, a5, a6, a7⟩ := moveStage1_fields vy { s with hint := false }
  obtain ⟨b1, b2, b3, b4, b5, b6, b7⟩ :=
    moveStage2_fields (moveStage1 vy { s with hint := false }).2
      (moveStage1 vy { s with hint := false }).1
  obtain ⟨c1, c2⟩ :=
    moveStage2_bounds (moveStage1 vy { s with hint := false }).2
      (moveStage1 vy { s with hint := false }).1 MIN_Y_POSITION
      (by rw [a5]; exact hM) (by rw [a3]; exact hY) (by rw [a4]; exact hD)
  apply invariant_move_core
  · rw [b1, a1]; exact hT1
  · rw [b1, a1]; exact hT2
  · rw [b6, a6]; exact hS
  · rw [b3]; exact c1
  · rw [b4]; exact c2
  · rw [b5, a5]; exact hM
  · rw [b4, a4, b3, a3]; exact hDY

theorem invariant_evaporate (k : ℕ) (s : FrictionState) (hInv : Invariant s) :
    Invariant (evaporate k s) := by
  obtain ⟨hT1, hT2, hS, hD, hY, hXl, hXr, hM, hDY⟩ := hInv
  have hd := evaporate_distance_le k s
  refine ⟨?_, ?_, ?_, ?_, ?_, ?_, ?_, ?_, ?_⟩
  · rw [evaporate_temperature]; exact hT1
  · rw [evaporate_temperature]; exact hT2
  · exact le_trans hS (evaporate_sched_le k s)
  · exact le_trans hD hd
  · rw [evaporate_positionY]; exact hY
  · rw [evaporate_positionX]; exact hXl
  · rw [evaporate_positionX]; exact hXr
  · rw [evaporate_minYPos]; exact hM
  · rw [evaporate_positionY]; linarith

theorem invariant_step (k : ℕ) (dt : ℚ) (s : FrictionState) (hdt : 0 ≤ dt)
    (hInv : Invariant s) : Invariant (step k dt s) := by
  obtain ⟨hT1, hT2, hS, hD, hY, hXl, hXr, hM, hDY⟩ := hInv
  unfold step
  by_cases h : dt > 1/2
  · rw [if_pos h]
    exact ⟨hT1, hT2, hS, hD, hY, hXl, hXr, hM, hDY⟩
  · rw [if_neg h]
    push_neg at h
    dsimp only
    have hf1 : 0 ≤ 1 - dt * COOLING_RATE := by
      unfold COOLING_RATE
      nlinarith
    have hf2 : 1 - dt * COOLING_RATE ≤ 1 := by
      unfold COOLING_RATE
      nlinarith
    have hprod : (s.temperature - s.scheduledEvaporationAmount) * (1 - dt * COOLING_RATE) ≤
        AMPLITUDE_MAX := by
      rcases le_or_lt 0 (s.temperature - s.scheduledEvaporationAmount) with hc | hc
      · have := mul_le_of_le_one_right hc hf2
        unfold AMPLITUDE_MAX at *
        linarith
      · have : (s.temperature - s.scheduledEvaporationAmount) * (1 - dt * COOLING_RATE) ≤ 0 :=
          mul_nonpos_iff.mpr (Or.inr ⟨hc.le, hf1⟩)
        unfold AMPLITUDE_MAX
        linarith
    refine ⟨?_, ?_, ?_, ?_, ?_, ?_, ?_, ?_, ?_⟩
    · show AMPLITUDE_MIN ≤ (setTemperature k _ _).temperature
      rw [setTemperature_temperature]
      exact le_max_left _ _
    · show (setTemperature k _ _).temperature ≤ AMPLITUDE_MAX
      rw [setTemperature_temperature]
      apply max_le
      · unfold AMPLITUDE_MIN AMPLITUDE_MAX
        norm_num
      · exact hprod
    · show (0:ℚ) ≤ 0
      exact le_refl 0
    · show (0:ℚ) ≤ (setTemperature k _ _).distance
      exact le_trans hD (setTemperature_distance_le k _ _)
    · show MIN_Y_POSITION ≤ (setTemperature k _ _).positionY
      rw [setTemperature_positionY]
      exact hY
    · show -MAX_X_DISPLACEMENT ≤ (setTemperature k _ _).positionX
      rw [setTemperature_positionX]
      exact hXl
    · show (setTemperature k _ _).positionX ≤ MAX_X_DISPLACEMENT
      rw [setTemperature_positionX]
      exact hXr
    · show (setTemperature k _ _).minYPos = some MIN_Y_POSITION
      rw [setTemperature_minYPos]
      exact hM
    · show DISTANCE_INITIAL ≤ (setTemperature k _ _).distance + (setTemperature k _ _).positionY
      have := setTemperature_distance_le k
        (max AMPLITUDE_MIN ((s.temperature - s.scheduledEvaporationAmount) *
          (1 - dt * COOLING_RATE))) { s with newStep := !s.newStep }
      rw [setTemperature_positionY]
      show DISTANCE_INITIAL ≤ _ + s.positionY
      have hds : s.distance ≤ _ := this
      linarith

theorem invariant_reset (k : ℕ) (s : FrictionState) (hInv : Invariant s) :
    Invariant (reset k s) := by
  obtain ⟨hT1, hT2, hS, hD, hY, hXl, hXr, hM, hDY⟩ := hInv
  unfold reset
  dsimp only
  have hb := setPosition_temperature_bounds k 0 0 (setTemperature k AMPLITUDE_MIN s)
    (by rw [setTemperature_temperature]) (by rw [setTemperature_temperature]; unfold AMPLITUDE_MIN AMPLITUDE_MAX; norm_num)
  refine ⟨?_, ?_, ?_, ?_, ?_, ?_, ?_, ?_, ?_⟩
  · exact hb.1
  · exact hb.2
  · exact le_trans (le_trans hS (setTemperature_sched_le k AMPLITUDE_MIN s))
      (setPosition_sched_le k 0 0 _)
  · show (0:ℚ) ≤ DISTANCE_INITIAL
    unfold DISTANCE_INITIAL
    norm_num
  · show MIN_Y_POSITION ≤ (setPosition k 0 0 (setTemperature k AMPLITUDE_MIN s)).positionY
    rw [setPosition_positionY]
    unfold MIN_Y_POSITION
    norm_num
  · show -MAX_X_DISPLACEMENT ≤ (setPosition k 0 0 (setTemperature k AMPLITUDE_MIN s)).positionX
    rw [setPosition_positionX]
    unfold MAX_X_DISPLACEMENT
    norm_num
  · show (setPosition k 0 0 (setTemperature k AMPLITUDE_MIN s)).positionX ≤ MAX_X_DISPLACEMENT
    rw [setPosition_positionX]
    unfold MAX_X_DISPLACEMENT
    norm_num
  · rfl
  · show DISTANCE_INITIAL ≤ DISTANCE_INITIAL +
      (setPosition k 0 0 (setTemperature k AMPLITUDE_MIN s)).positionY
    rw [setPosition_positionY]
    norm_num

theorem invariant_initState : Invariant initState := by
  unfold Invariant
  refine ⟨?_, ?_, ?_, ?_, ?_, ?_, ?_, ?_, ?_⟩
  · decide
  · decide
  · decide
  · decide
  · decide
  · decide
  · decide
  · decide
  · show DISTANCE_INITIAL ≤ DISTANCE_INITIAL + 0
    norm_num

theorem reachable_invariant (s : FrictionState) (h : Reachable s) : Invariant s := by
  induction h with
  | ofInit => exact invariant_initState
  | ofStep k dt s hdt h ih => exact invariant_step k dt s hdt ih
  | ofMove k vx vy s h ih => exact invariant_move k vx vy s ih
  | ofEvaporate k s h ih => exact invariant_evaporate k s ih
  | ofReset k s h ih => exact invariant_reset k s ih

/-! ### Claim theorems -/

/-- C1: for every call `step(dt)` with `0 ≤ dt ≤ 0.5`, the new temperature
equals the old temperature minus the accumulated evaporation-cooling
amount, multiplied by `1 - dt * COOLING_RATE` (with `COOLING_RATE = 0.2`),
clamped below at `AMPLITUDE_MIN = 1`, and the evaporation-cooling
accumulator is cleared to `0`. -/
theorem stepCoolingFormula (k : ℕ) (dt : ℚ) (s : FrictionState)
    (h0 : 0 ≤ dt) (h1 : dt ≤ 1/2) :
    (step k dt s).temperature =
      max AMPLITUDE_MIN
        ((s.temperature - s.scheduledEvaporationAmount) * (1 - dt * COOLING_RATE)) ∧
    (step k dt s).scheduledEvaporationAmount = 0 := by
  unfold step
  rw [if_neg (by linarith : ¬ dt > 1/2)]
  dsimp only
  constructor
  · show (setTemperature k _ _).temperature = _
    rw [setTemperature_temperature]
  · rfl

/-- Witness for C1 at `dt = 1/4` from the initial state. -/
theorem stepCoolingFormulaApplied :
    (0:ℚ) ≤ 1/4 ∧ (1/4:ℚ) ≤ 1/2 ∧
    ((step 0 (1/4) initState).temperature =
        max AMPLITUDE_MIN ((initState.temperature - initState.scheduledEvaporationAmount) *
          (1 - (1/4) * COOLING_RATE)) ∧
      (step 0 (1/4) initState).scheduledEvaporationAmount = 0) :=
  ⟨by norm_num, by norm_num, stepCoolingFormula 0 (1/4) initState (by norm_num) (by norm_num)⟩

/-- C2: for every `dt > 0.5`, `step(dt)` is a no-op: the state (in
particular temperature, position and distance) is unchanged. -/
theorem stepLargeDtNoOp (k : ℕ) (dt : ℚ) (s : FrictionState) (h : 1/2 < dt) :
    step k dt s = s := by
  unfold step
  rw [if_pos h]

/-- Witness for C2 at `dt = 1` from the initial state. -/
theorem stepLargeDtNoOpApplied :
    (1/2:ℚ) < 1 ∧ step 0 1 initState = initState :=
  ⟨by norm_num, stepLargeDtNoOp 0 1 initState (by norm_num)⟩

/-- C4: temperature is an invariant of the model: after initialization and
after every sequence of `step` (with nonnegative frame time), `move`,
`evaporate` and `reset` operations, temperature stays within
`[AMPLITUDE_MIN, AMPLITUDE_MAX] = [1, 12]`. -/
theorem temperatureBounded (s : FrictionState) (h : Reachable s) :
    AMPLITUDE_MIN ≤ s.temperature ∧ s.temperature ≤ AMPLITUDE_MAX := by
  have hInv := reachable_invariant s h
  exact ⟨hInv.1, hInv.2.1⟩

/-- Witness for C4 at the initial state. -/
theorem temperatureBoundedApplied :
    AMPLITUDE_MIN ≤ initState.temperature ∧ initState.temperature ≤ AMPLITUDE_MAX :=
  temperatureBounded initState Reachable.ofInit

/-- C9: across any sequence of `step` calls with no intervening `move`
calls, temperature is monotonically non-increasing: each `step` (with a
nonnegative frame time, from a state with temperature at least
`AMPLITUDE_MIN` and a nonnegative accumulator, as every reachable state
has) leaves temperature at most its previous value. -/
theorem stepMonotoneCooling (k : ℕ) (dt : ℚ) (s : FrictionState)
    (hT : AMPLITUDE_MIN ≤ s.temperature) (hS : 0 ≤ s.scheduledEvaporationAmount)
    (hdt : 0 ≤ dt) :
    (step k dt s).temperature ≤ s.temperature := by
  unfold step
  by_cases h : dt > 1/2
  · rw [if_pos h]
  · rw [if_neg h]
    push_neg at h
    dsimp only
    show (setTemperature k _ _).temperature ≤ _
    rw [setTemperature_temperature]
    have hf1 : 0 ≤ 1 - dt * COOLING_RATE := by
      unfold COOLING_RATE
      nlinarith
    have hf2 : 1 - dt * COOLING_RATE ≤ 1 := by
      unfold COOLING_RATE
      nlinarith
    apply max_le
    · unfold AMPLITUDE_MIN at hT ⊢
      linarith
    · rcases le_or_lt 0 (s.temperature - s.scheduledEvaporationAmount) with hc | hc
      · have := mul_le_of_le_one_right hc hf2
        linarith
      · have hneg : (s.temperature - s.scheduledEvaporationAmount) * (1 - dt * COOLING_RATE) ≤ 0 :=
          mul_nonpos_iff.mpr (Or.inr ⟨hc.le, hf1⟩)
        unfold AMPLITUDE_MIN at hT
        linarith

/-- Witness for C9 at `dt = 1/4` from the initial state. -/
theorem stepMonotoneCoolingApplied :
    AMPLITUDE_MIN ≤ initState.temperature ∧ 0 ≤ initState.scheduledEvaporationAmount ∧
    (0:ℚ) ≤ 1/4 ∧ (step 0 (1/4) initState).temperature ≤ initState.temperature :=
  ⟨by decide, by decide, by norm_num,
    stepMonotoneCooling 0 (1/4) initState (by decide) (by decide) (by norm_num)⟩

theorem spliceOne_length (row : List Atom) (i : ℕ) (h : i < row.length) :
    (spliceOne row i).length + 1 = row.length := by
  unfold spliceOne
  simp only [List.length_append, List.length_take, List.length_drop]
  omega

theorem step_rows_le (k : ℕ) (dt : ℚ) (s : FrictionState) :
    (step k dt s).toEvaporate.length ≤ s.toEvaporate.length := by
  unfold step
  by_cases h : dt > 1/2
  · rw [if_pos h]
  · rw [if_neg h]
    dsimp only
    show (setTemperature k _ _).toEvaporate.length ≤ _
    exact setTemperature_rows_le k _ _

theorem move_rows_le (k : ℕ) (vx vy : ℚ) (s : FrictionState) :
    (move k vx vy s).toEvaporate.length ≤ s.toEvaporate.length := by
  simp only [move]
  obtain ⟨-, -, -, -, -, -, a7⟩ := moveStage1_fields vy { s with hint := false }
  obtain ⟨-, -, -, -, -, -, b7⟩ :=
    moveStage2_fields (moveStage1 vy { s with hint := false }).2
      (moveStage1 vy { s with hint := false }).1
  apply le_trans (setPosition_rows_le k _ _ _)
  rw [b7, a7]

/-- C5: whenever temperature exceeds the evaporation limit (7) and the
active (last) row of the evaporation queue is nonempty, one call to the
internal `evaporate` step removes exactly one atom (at the oracle-chosen
index, covering every index of the row) from that row, marks it
evaporated, and adds the fixed cooling decrement `0.01` to the accumulator
applied on the next `step`; the active row's atom count strictly decreases
by exactly 1. -/
theorem evaporateRemovesOneAtom (k : ℕ) (s : FrictionState) (row : List Atom)
    (htemp : AMPLITUDE_EVAPORATE < s.temperature)
    (hrow : s.toEvaporate.getLast? = some row) (hne : row ≠ []) :
    ∃ a, row.get? (k % row.length) = some a ∧
      (evaporate k s).toEvaporate =
        s.toEvaporate.dropLast ++ [spliceOne row (k % row.length)] ∧
      (spliceOne row (k % row.length)).length + 1 = row.length ∧
      (evaporate k s).scheduledEvaporationAmount =
        s.scheduledEvaporationAmount + EVAPORATION_AMPLITUDE_REDUCTION ∧
      (evaporate k s).evaporatedAtoms = s.evaporatedAtoms ++ [{ a with isEvaporated := true }] := by
  have hlen : 0 < row.length := List.length_pos.mpr hne
  have hpop : popIfEmptyLast s = s := pop_of_last_ne_nil s row hrow hne
  unfold evaporate
  rw [hpop]
  unfold evaporateFrom
  rw [hrow]
  dsimp only
  rw [dif_pos hlen]
  dsimp only
  refine ⟨row.get ⟨k % row.length, Nat.mod_lt k hlen⟩, ?_, rfl,
    spliceOne_length row (k % row.length) (Nat.mod_lt k hlen), rfl, rfl⟩
  exact List.get?_eq_get (Nat.mod_lt k hlen)

/-- Concrete state for the C5 witness: the initialized queue with the
temperature pushed just above the evaporation limit. -/
def hotState : FrictionState :=
  { initState with temperature := 8 }

/-- Witness for C5: from the hot initialized state and oracle `3`, the
last row (9 atoms) loses exactly one atom. -/
theorem evaporateRemovesOneAtomApplied :
    AMPLITUDE_EVAPORATE < hotState.temperature ∧
    ∃ a, (List.replicate 9 (Atom.mk false)).get?
        (3 % (List.replicate 9 (Atom.mk false)).length) = some a ∧
      (evaporate 3 hotState).toEvaporate =
        hotState.toEvaporate.dropLast ++
          [spliceOne (List.replicate 9 (Atom.mk false))
            (3 % (List.replicate 9 (Atom.mk false)).length)] ∧
      (spliceOne (List.replicate 9 (Atom.mk false))
          (3 % (List.replicate 9 (Atom.mk false)).length)).length + 1 =
        (List.replicate 9 (Atom.mk false)).length ∧
      (evaporate 3 hotState).scheduledEvaporationAmount =
        hotState.scheduledEvaporationAmount + EVAPORATION_AMPLITUDE_REDUCTION ∧
      (evaporate 3 hotState).evaporatedAtoms =
        hotState.evaporatedAtoms ++ [{ a with isEvaporated := true }] :=
  ⟨by decide,
    evaporateRemovesOneAtom 3 hotState (List.replicate 9 (Atom.mk false))
      (by decide) (by decide) (by decide)⟩

/-- C6: when `evaporate` is called and the current (last) row of the queue
is empty, that row is popped, `distance` grows by exactly one row height
(`DISTANCE_Y = 20`), and the published rows-remaining count is set to the
new queue length; and across `step`, `move` and `evaporate` (every
operation other than `reset`), the number of rows remaining never
increases. -/
theorem evaporatePopsEmptyRow :
    (∀ (k : ℕ) (s : FrictionState), s.toEvaporate.getLast? = some [] →
      (evaporate k s).distance = s.distance + DISTANCE_Y ∧
      (evaporate k s).atomRowsToEvaporate = s.toEvaporate.dropLast.length ∧
      (evaporate k s).toEvaporate.length + 1 = s.toEvaporate.length) ∧
    (∀ (k : ℕ) (dt : ℚ) (s : FrictionState),
      (step k dt s).toEvaporate.length ≤ s.toEvaporate.length) ∧
    (∀ (k : ℕ) (vx vy : ℚ) (s : FrictionState),
      (move k vx vy s).toEvaporate.length ≤ s.toEvaporate.length) ∧
    (∀ (k : ℕ) (s : FrictionState),
      (evaporate k s).toEvaporate.length ≤ s.toEvaporate.length) := by
  refine ⟨?_, fun k dt s => step_rows_le k dt s, fun k vx vy s => move_rows_le k vx vy s,
    fun k s => evaporate_rows_le k s⟩
  intro k s h
  have hne : s.toEvaporate ≠ [] := by
    intro hnil
    rw [hnil] at h
    simp at h
  have hpop : popIfEmptyLast s =
      { s with toEvaporate := s.toEvaporate.dropLast,
               distance := s.distance + DISTANCE_Y,
               atomRowsToEvaporate := s.toEvaporate.dropLast.length } := by
    unfold popIfEmptyLast
    rw [h]
    simp
  unfold evaporate
  rw [hpop]
  refine ⟨?_, ?_, ?_⟩
  · rw [evaporateFrom_distance]
  · rw [evaporateFrom_atomRows]
  · rw [evaporateFrom_rows_eq]
    dsimp only
    rw [List.length_dropLast]
    have := List.length_pos.mpr hne
    omega

/-- Concrete state for the C6 witness: a queue whose last row is empty. -/
def emptyLastRowState : FrictionState :=
  { constructedState with toEvaporate := [[Atom.mk false], []] }

/-- Witness for C6: popping the empty last row grows the distance by one
row height and decrements the row count. -/
theorem evaporatePopsEmptyRowApplied :
    (evaporate 0 emptyLastRowState).distance = emptyLastRowState.distance + DISTANCE_Y ∧
    (evaporate 0 emptyLastRowState).atomRowsToEvaporate =
      emptyLastRowState.toEvaporate.dropLast.length ∧
    (evaporate 0 emptyLastRowState).toEvaporate.length + 1 =
      emptyLastRowState.toEvaporate.length :=
  evaporatePopsEmptyRow.1 0 emptyLastRowState (by decide)

theorem move_temperature_heats (k : ℕ) (vx vy2 : ℚ) (s2 : FrictionState)
    (hcontact : ⌊s2.distance - vy2⌋ ≤ 0) :
    (setPosition k (s2.positionX + clampedDx s2 vx) (s2.positionY + vy2) s2).temperature =
      min (s2.temperature + |clampedDx s2 vx| * HEATING_MULTIPLIER) AMPLITUDE_MAX := by
  have heq : s2.distance - (s2.positionY + vy2 - s2.positionY) = s2.distance - vy2 := by ring
  have h := setPosition_temperature_contact k (s2.positionX + clampedDx s2 vx)
    (s2.positionY + vy2) s2 (by rw [heq]; exact hcontact)
  rw [h, add_sub_cancel_left]

theorem heating_strict (k : ℕ) (vx vy2 t : ℚ) (s2 : FrictionState)
    (ht : s2.temperature = t)
    (hcon : ⌊s2.distance - vy2⌋ ≤ 0)
    (hdx : clampedDx s2 vx ≠ 0)
    (hT : t < AMPLITUDE_MAX) :
    t < (setPosition k (s2.positionX + clampedDx s2 vx) (s2.positionY + vy2) s2).temperature := by
  rw [move_temperature_heats k vx vy2 s2 hcon, ht]
  apply lt_min
  · have h1 : 0 < |clampedDx s2 vx| := abs_pos.mpr hdx
    have hH : (0:ℚ) < HEATING_MULTIPLIER := by
      unfold HEATING_MULTIPLIER
      norm_num
    nlinarith
  · exact hT

/-- C3 counterexample: from a reachable state with the books in contact
(`distance = 0`, `positionY = 25`), the call `move {x := 5, y := -10}` has a
nonzero x component and an unclamped temperature, yet leaves temperature
unchanged: the upward y component breaks contact before the heating check
runs. -/
def contactState : FrictionState :=
  { initState with positionY := 25, distance := 0, hint := false }

theorem moveContactHeatingCex :
    contact contactState = true ∧ (5:ℚ) ≠ 0 ∧
    contactState.temperature < AMPLITUDE_MAX ∧
    (move 0 5 (-10) contactState).temperature = contactState.temperature := by
  refine ⟨by decide, by norm_num, by decide, by decide⟩

/-- C3 (amended): for every state in which `contact` is true, every `move`
call whose y component is 0 and whose clamped x displacement is nonzero
(the x component is nonzero and not entirely absorbed by the
`MAX_X_DISPLACEMENT` clamp) strictly increases temperature unless
temperature is already clamped at `AMPLITUDE_MAX = 12`; and no `move` call
ever takes a temperature at most `AMPLITUDE_MAX` above `AMPLITUDE_MAX`. -/
theorem moveContactHeatingAmended :
    (∀ (k : ℕ) (vx vy : ℚ) (s : FrictionState), contact s = true → vy = 0 →
      clampedDx s vx ≠ 0 → s.temperature < AMPLITUDE_MAX →
      s.temperature < (move k vx vy s).temperature) ∧
    (∀ (k : ℕ) (vx vy : ℚ) (s : FrictionState), s.temperature ≤ AMPLITUDE_MAX →
      (move k vx vy s).temperature ≤ AMPLITUDE_MAX) := by
  constructor
  · intro k vx vy s hc hy hdx hT
    subst hy
    have hcfloor : ⌊s.distance⌋ ≤ 0 := by
      unfold contact at hc
      exact of_decide_eq_true hc
    simp only [move]
    have hstage1 : moveStage1 0 { s with hint := false } = ({ s with hint := false }, 0) := by
      unfold moveStage1
      rw [if_neg (by simp)]
    rw [hstage1]
    dsimp only
    unfold moveStage2
    by_cases hgt : (0:ℚ) > ({ s with hint := false } : FrictionState).distance
    · rw [if_pos hgt]
      dsimp only
      apply heating_strict
      · rfl
      · show ⌊s.distance - s.distance⌋ ≤ 0
        simp
      · exact hdx
      · exact hT
    · rw [if_neg hgt]
      dsimp only
      rw [show ({ s with hint := false } : FrictionState).minYPos = s.minYPos from rfl]
      cases hm : s.minYPos with
      | none =>
        dsimp only
        apply heating_strict
        · rfl
        · show ⌊s.distance - 0⌋ ≤ 0
          rw [sub_zero]
          exact hcfloor
        · exact hdx
        · exact hT
      | some m =>
        dsimp only
        by_cases hlt : ({ s with hint := false } : FrictionState).positionY + 0 < m
        · rw [if_pos hlt]
          dsimp only
          apply heating_strict
          · rfl
          · show ⌊s.distance - (m - s.positionY)⌋ ≤ 0
            have hmy : s.positionY + 0 < m := hlt
            refine le_trans (Int.floor_le_floor ?_) hcfloor
            linarith
          · exact hdx
          · exact hT
        · rw [if_neg hlt]
          dsimp only
          apply heating_strict
          · rfl
          · show ⌊s.distance - 0⌋ ≤ 0
            rw [sub_zero]
            exact hcfloor
          · exact hdx
          · exact hT
  · intro k vx vy s h
    simp only [move]
    obtain ⟨b1, -, -, -, -, -, -⟩ :=
      moveStage2_fields (moveStage1 vy { s with hint := false }).2
        (moveStage1 vy { s with hint := false }).1
    obtain ⟨a1, -, -, -, -, -, -⟩ := moveStage1_fields vy { s with hint := false }
    apply setPosition_temperature_le
    rw [b1, a1]
    exact h

/-- Witness for the amended C3 at the reachable contact state. -/
theorem moveContactHeatingApplied :
    contactState.temperature < (move 0 5 0 contactState).temperature ∧
    (move 0 5 0 contactState).temperature ≤ AMPLITUDE_MAX :=
  ⟨moveContactHeatingAmended.1 0 5 0 contactState (by decide) rfl (by decide) (by decide),
   moveContactHeatingAmended.2 0 5 0 contactState (by decide)⟩

/-- C7: from every reachable state, `reset` restores temperature to
`AMPLITUDE_MIN`, the position to `(0, 0)`, the distance to
`DISTANCE_INITIAL = 25`, and rebuilds the evaporation queue with the same
row count and per-row atom counts as the static initial layout sample. -/
theorem resetRestoresInitial (k : ℕ) (s : FrictionState) (h : Reachable s) :
    (reset k s).temperature = AMPLITUDE_MIN ∧
    (reset k s).positionX = 0 ∧ (reset k s).positionY = 0 ∧
    (reset k s).distance = DISTANCE_INITIAL ∧
    (reset k s).toEvaporate.map List.length = toEvaporateSample.map List.length := by
  have hInv := reachable_invariant s h
  obtain ⟨hT1, hT2, hS, hD, hY, hXl, hXr, hM, hDY⟩ := hInv
  unfold reset
  dsimp only
  have h1 : setTemperature k AMPLITUDE_MIN s = { s with temperature := AMPLITUDE_MIN } :=
    setTemperature_no_evap k AMPLITUDE_MIN s
      (by unfold AMPLITUDE_MIN AMPLITUDE_EVAPORATE; norm_num)
  rw [h1]
  have h2 : setPosition k 0 0 ({ s with temperature := AMPLITUDE_MIN } : FrictionState) =
      { s with temperature := AMPLITUDE_MIN, positionX := 0, positionY := 0,
               distance := s.distance - (0 - s.positionY) } := by
    unfold setPosition
    dsimp only
    rw [if_neg ?hnc]
    case hnc =>
      unfold contact
      simp only [decide_eq_true_eq, not_le]
      have hge : (1:ℚ) ≤ s.distance - (0 - s.positionY) := by
        unfold DISTANCE_INITIAL at hDY
        linarith
      have : (1:ℤ) ≤ ⌊s.distance - (0 - s.positionY)⌋ := by
        apply Int.le_floor.mpr
        push_cast
        linarith
      omega
  rw [h2]
  refine ⟨rfl, rfl, rfl, rfl, ?_⟩
  show (toEvaporateSample.map
      (fun row => row.map fun a => { a with isEvaporated := false })).map List.length =
    toEvaporateSample.map List.length
  decide

/-- Witness for C7 at the initial state. -/
theorem resetRestoresInitialApplied :
    (reset 0 initState).temperature = AMPLITUDE_MIN ∧
    (reset 0 initState).positionX = 0 ∧ (reset 0 initState).positionY = 0 ∧
    (reset 0 initState).distance = DISTANCE_INITIAL ∧
    (reset 0 initState).toEvaporate.map List.length = toEvaporateSample.map List.length :=
  resetRestoresInitial 0 initState Reachable.ofInit

theorem applyMoves_invariant (ms : List (ℕ × ℚ × ℚ)) (s : FrictionState)
    (h : Invariant s) : Invariant (applyMoves ms s) := by
  induction ms generalizing s with
  | nil => exact h
  | cons m ms ih =>
    have hc : applyMoves (m :: ms) s = applyMoves ms (move m.1 m.2.1 m.2.2 s) := by
      unfold applyMoves
      rw [List.foldl_cons]
    rw [hc]
    exact ih _ (invariant_move m.1 m.2.1 m.2.2 s h)

/-- C8: for every sequence of `move` calls starting from the initial state,
`positionX` stays within `[-600, 600]` and `positionY` never drops below
`-70`; moreover `distance` stays nonnegative throughout, so the claim's
proviso that `distance ≥ 0` at each call is maintained automatically. -/
theorem movePositionBounds (ms : List (ℕ × ℚ × ℚ)) :
    -MAX_X_DISPLACEMENT ≤ (applyMoves ms initState).positionX ∧
    (applyMoves ms initState).positionX ≤ MAX_X_DISPLACEMENT ∧
    MIN_Y_POSITION ≤ (applyMoves ms initState).positionY ∧
    0 ≤ (applyMoves ms initState).distance := by
  have h := applyMoves_invariant ms initState invariant_initState
  exact ⟨h.2.2.2.2.2.1, h.2.2.2.2.2.2.1, h.2.2.2.2.1, h.2.2.2.1⟩

/-- C10: if the accumulated bottom offset is positive and `move(v)` is
called with `v.y < 0` from a reachable state, the entire upward vertical
component is discarded — `positionY` is unchanged even when `|v.y|` exceeds
the stored offset — and the bottom offset is decreased by the full `|v.y|`
(so it can become negative). -/
theorem moveDiscardsUpward (k : ℕ) (vx vy : ℚ) (s : FrictionState)
    (h : Reachable s) (hb : 0 < s.bottomOffset) (hy : vy < 0) :
    (move k vx vy s).positionY = s.positionY ∧
    (move k vx vy s).bottomOffset = s.bottomOffset + vy := by
  have hInv := reachable_invariant s h
  obtain ⟨hT1, hT2, hS, hD, hY, hXl, hXr, hM, hDY⟩ := hInv
  simp only [move]
  have hstage1 : moveStage1 vy { s with hint := false } =
      ({ s with hint := false, bottomOffset := s.bottomOffset + vy }, 0) := by
    unfold moveStage1
    rw [if_pos ⟨hb, hy⟩]
  rw [hstage1]
  dsimp only
  have hstage2 : moveStage2 0
      ({ s with hint := false, bottomOffset := s.bottomOffset + vy } : FrictionState) =
      ({ s with hint := false, bottomOffset := s.bottomOffset + vy }, 0) := by
    unfold moveStage2
    rw [if_neg ?h1]
    case h1 =>
      show ¬ ((0:ℚ) > s.distance)
      push_neg
      exact hD
    rw [show ({ s with hint := false, bottomOffset := s.bottomOffset + vy } :
      FrictionState).minYPos = s.minYPos from rfl, hM]
    dsimp only
    rw [if_neg ?h2]
    case h2 =>
      show ¬ (s.positionY + 0 < MIN_Y_POSITION)
      push_neg
      linarith
  rw [hstage2]
  dsimp only
  constructor
  · rw [setPosition_positionY]
    show s.positionY + 0 = s.positionY
    ring
  · rw [setPosition_bottomOffset]

/-- Concrete reachable state with a positive bottom offset for the C10
witness: a downward drag of 30 through a gap of 25 banks an offset of 5. -/
def offsetState : FrictionState :=
  move 0 0 30 initState

/-- Witness for C10: an upward component of `-10` leaves `positionY`
unchanged and drives the offset `5` down to `-5`, below zero. -/
theorem moveDiscardsUpwardApplied :
    0 < offsetState.bottomOffset ∧
    ((move 1 0 (-10) offsetState).positionY = offsetState.positionY ∧
      (move 1 0 (-10) offsetState).bottomOffset = offsetState.bottomOffset + (-10)) ∧
    (move 1 0 (-10) offsetState).bottomOffset < 0 :=
  ⟨by decide,
   moveDiscardsUpward 1 0 (-10) offsetState
     (Reachable.ofMove 0 0 30 initState Reachable.ofInit) (by decide) (by decide),
   by decide⟩

end Friction
